import Mathlib

/-!
Verification development for the traxiv preprint-reconciliation pipeline.

The Python sources are shallowly embedded as Lean definitions:

* `src/db.py` (`MongoPreprints`): the per-group MongoDB collection is
  modelled as a `List Entry` in insertion order; `find_one` is the first
  match, `insert_one` appends, `update_one` rewrites the first match,
  `find`/`count` filter the list.
* `src/rpf.py`: link grammars and the live-probe; HTTP GET and the
  doi.org resolver are oracles (`String → Option _`, `none` modelling an
  unreachable network, which in Python raises an uncaught exception);
  Python exceptions are modelled with `Except PyError`, and every
  network-touching function additionally returns the list of URLs it
  requested, so that "no network call" is expressible.
* `src/biorxiv.py` (`retrieve`, `details`): the paginated listing
  endpoint is an oracle from cursor to page; the while-loop is embedded
  with explicit fuel; the per-item detail endpoint is an oracle from doi
  to `Option` response, `none` modelling an unreachable network on which
  the catch-free `requests.get` raises, aborting the enrichment loop.
* `src/traxiv.py` (`Traxiv.update`, `Traxiv.post`): the CrossRef lookup
  (`PublishedWithRPF.from_doi`), the doi.org resolver and the template
  expansion (`HypoPostRPF.generate`) are oracles, since they only
  produce data consumed by the store logic; the control flow of both
  passes is embedded exactly.

Machine integers do not occur; Python ints are `Int`/`Nat`.
-/

/-- `toolbox.Preprint`: metadata returned by the bioRxiv publisher API.
`corr_author` and `institution` are attributes that only exist after the
enrichment pass (`biorxiv.details`), hence `Option`. -/
structure Preprint where
  biorxiv_doi : String := ""
  biorxiv_url : String := ""
  published_doi : String := ""
  preprint_title : String := ""
  preprint_category : String := ""
  preprint_date : String := ""
  published_date : String := ""
  published_citation_count : String := ""
  corr_author : Option String := none
  institution : Option String := none
deriving DecidableEq

/-- `toolbox.Published` merged with `traxiv.PublishedWithRPF` (the
subclass only adds the `rpf` field, the derived review-process-file
link, empty when unresolvable). -/
structure Published where
  doi : String := ""
  journal : String := ""
  subject : List String := []
  rpf : String := ""
deriving DecidableEq

/-- `toolbox.HypoPost`: a drafted hypothes.is annotation.
`hypothesis_id` is empty until the post is live. -/
structure HypoPost where
  annotation_text : String := ""
  tags : List String := []
  hypothesis_id : String := ""
deriving DecidableEq

/-- One MongoDB document as written by `MongoPreprints.insert`:
`{'preprint': ..., 'paper': ..., 'annotation': ...}`.  The third
sub-document is named `annot` here. -/
structure Entry where
  preprint : Preprint
  paper : Published
  annot : HypoPost
deriving DecidableEq

/-- `MongoPreprints.find_one`: first document whose preprint doi matches. -/
def find_one (g : List Entry) (doi : String) : Option Entry :=
  g.find? (fun e => e.preprint.biorxiv_doi == doi)

/-- `MongoPreprints.exists`: whether a document for this preprint doi is stored. -/
def existsDoc (g : List Entry) (doi : String) : Bool :=
  (find_one g doi).isSome

/-- `MongoPreprints.insert`: inserts the three sub-documents as one record
unless a document with the same preprint doi already exists, in which case
it returns the null sentinel (`none`) and leaves the collection unchanged. -/
def dbInsert (g : List Entry) (preprint : Preprint) (paper : Published)
    (hypo_post : HypoPost) : Option Unit × List Entry :=
  if existsDoc g preprint.biorxiv_doi then (none, g)
  else (some (), g ++ [⟨preprint, paper, hypo_post⟩])

/-- `MongoPreprints.not_yet_posted`: the documents matching the query
`{'annotation.hypothesis_id': {'$eq': ''}}` (via `find`), together with
the number of matching documents (via `count` on the same query). -/
def not_yet_posted (g : List Entry) : List Entry × Nat :=
  (g.filter (fun e => e.annot.hypothesis_id == ""),
   (g.filter (fun e => e.annot.hypothesis_id == "")).length)

/-- `MongoPreprints.update`: `update_one` sets `annotation.hypothesis_id`
on the first document whose preprint doi matches (no-op when none does). -/
def updateDoc : List Entry → String → String → List Entry
  | [], _, _ => []
  | e :: rest, doi, hyp_id =>
    if e.preprint.biorxiv_doi == doi then
      { e with annot := { e.annot with hypothesis_id := hyp_id } } :: rest
    else
      e :: updateDoc rest doi hyp_id

/-- Number of stored documents for a given preprint doi. -/
def countDoi (g : List Entry) (doi : String) : Nat :=
  (g.filter (fun e => e.preprint.biorxiv_doi == doi)).length

/-! ## `traxiv.Traxiv.update` (the filter-and-draft pass) -/

/-- One reason record appended to `not_updated` in `Traxiv.update`. -/
structure NotUpdated where
  doi : String
  reason : String
deriving DecidableEq

/-- Body of the per-preprint loop of `Traxiv.update`.  `mkPaper` stands for
`PublishedWithRPF.from_doi` (CrossRef lookup plus `generate_rpf_link`),
`resolveO` for `utils.resolve`, `mkPost` for `HypoPostRPF.generate` with
the fixed template and banner table: all three only fabricate the data the
store logic consumes. -/
def traxivUpdateStep (mkPaper : String → Published) (resolveO : String → String)
    (mkPost : Preprint → Published → HypoPost) (journals : List String)
    (st : List Entry × List NotUpdated) (prepr : Preprint) :
    List Entry × List NotUpdated :=
  let g := st.1
  let nu := st.2
  if existsDoc g prepr.biorxiv_doi then
    (g, nu ++ [⟨prepr.biorxiv_doi, "pre-existing"⟩])
  else
    let paper := mkPaper prepr.published_doi
    if paper.rpf ≠ "" ∧ paper.journal ∈ journals then
      let prepr2 := { prepr with biorxiv_url := resolveO prepr.biorxiv_doi }
      ((dbInsert g prepr2 paper (mkPost prepr2 paper)).2, nu)
    else
      (g, nu ++ [⟨prepr.biorxiv_doi, "rpf issue / not in journals"⟩])

/-- `Traxiv.update`: processes the discovered preprints in order, returning
the updated store and the `not_updated` report list. -/
def traxivUpdate (mkPaper : String → Published) (resolveO : String → String)
    (mkPost : Preprint → Published → HypoPost) (journals : List String)
    (g : List Entry) (preprints : List Preprint) :
    List Entry × List NotUpdated :=
  preprints.foldl (traxivUpdateStep mkPaper resolveO mkPost journals) (g, [])

/-! ## `traxiv.Traxiv.post` (the publish pass) -/

/-- The response of `toolbox.post_one` as far as `Traxiv.post` reads it:
the HTTP status code, the `id` field of the JSON body (read only on 200),
and the raw body text (printed on non-200). -/
structure PostResp where
  status_code : Nat
  jsonId : String
  text : String := ""

/-- Body of the per-row loop of `Traxiv.post`.  The state is the evolving
store, the `updated` counter, and the trace of `(doi, hyp_id)` arguments
of the `db.update` (set-published) calls made so far.  `oracle` stands
for `post_one` applied to the permissions, group and the row's target and
annotation. -/
def postStep (oracle : Entry → PostResp)
    (st : List Entry × Nat × List (String × String)) (row : Entry) :
    List Entry × Nat × List (String × String) :=
  let resp := oracle row
  let hyp_id := if resp.status_code == 200 then resp.jsonId else ""
  (updateDoc st.1 row.preprint.biorxiv_doi hyp_id,
   st.2.1 + 1,
   st.2.2 ++ [(row.preprint.biorxiv_doi, hyp_id)])

/-- `Traxiv.post`: reads the unpublished rows once, then loops over them,
publishing each and recording the assigned (or empty) hypothes.is id.
Returns the final store, the `updated` counter it reports, and the trace
of set-published calls. -/
def traxivPost (oracle : Entry → PostResp) (g : List Entry) :
    List Entry × Nat × List (String × String) :=
  (not_yet_posted g).1.foldl (postStep oracle) (g, 0, [])

/-! ## `rpf.py`: review-process-file link generation -/

/-- Python exceptions that `rpf.py` can raise and never catches. -/
inductive PyError where
  | connectionError
  | attributeError
  | keyError
deriving DecidableEq

/-- What `RPFLinkAbstract._test` reads of a `requests.get` response: the
`Content-Type` header (`none` when the header is absent, in which case the
subscript raises `KeyError`). -/
structure HttpResp where
  contentType : Option String
deriving DecidableEq

/-- What `utils.resolve` reads of the doi.org response: the status code
and the final URL after redirects. -/
structure ResolveResp where
  status_code : Nat
  url : String
deriving DecidableEq

/-- Python `str.strip()` (whitespace trim on both ends). -/
def pyStrip (s : String) : String :=
  String.mk (((s.data.dropWhile Char.isWhitespace).reverse.dropWhile
    Char.isWhitespace).reverse)

/-- Python `str.lower()`. -/
def pyLower (s : String) : String :=
  String.mk (s.data.map Char.toLower)

/-- `needle.isPrefixOf hay` for char lists, written out. -/
def startsWithSeq : List Char → List Char → Bool
  | [], _ => true
  | _ :: _, [] => false
  | a :: as, b :: bs => a == b && startsWithSeq as bs

/-- Python `needle in hay` (contiguous substring test) on char lists. -/
def containsSeq (needle : List Char) : List Char → Bool
  | [] => needle.isEmpty
  | c :: rest => startsWithSeq needle (c :: rest) || containsSeq needle rest

/-- `'application/pdf' in content_type`. -/
def pdfIn (contentType : String) : Bool :=
  containsSeq "application/pdf".data contentType.data

/-- `RPFLinkAbstract._test`: when the candidate link is non-empty, issue a
GET to it (recorded in the trace); an unreachable network raises
`ConnectionError`, an absent `Content-Type` header raises `KeyError`, and
otherwise the link is kept only when the content type says PDF. -/
def rpfTest (get : String → Option HttpResp) (link : String) :
    Except PyError String × List String :=
  if link ≠ "" then
    match get link with
    | none => (Except.error PyError.connectionError, [link])
    | some resp =>
      match resp.contentType with
      | none => (Except.error PyError.keyError, [link])
      | some ct => (Except.ok (if pdfIn ct then link else ""), [link])
  else
    (Except.ok "", [])

/-- The character class `[-_;()/:a-zA-Z0-9]` of the Grammar A pattern. -/
def isClassChar (c : Char) : Bool :=
  c == '-' || c == '_' || c == ';' || c == '(' || c == ')' || c == '/' ||
    c == ':' || ('a' ≤ c && c ≤ 'z') || ('A' ≤ c && c ≤ 'Z') || c.isDigit

/-- The suffix part `([-_;()/:a-zA-Z0-9]+)\.([-_;()/:a-zA-Z0-9]+)$` of the
Grammar A pattern.  Because the class excludes the dot, the separating
dot must be the first (and only) dot, so the match is deterministic. -/
def grammarASuffix (l : List Char) : Option (List Char × List Char) :=
  let g1 := l.takeWhile (fun c => !(c == '.'))
  match l.dropWhile (fun c => !(c == '.')) with
  | c :: g2 =>
    if c = '.' ∧ g1 ≠ [] ∧ g2 ≠ [] ∧ g1.all isClassChar = true ∧
        g2.all isClassChar = true
    then some (g1, g2) else none
  | [] => none

/-- The full Grammar A pattern `^10.\d{4,9}/(...)\.(...)$` (the third
character is the unescaped regex dot, matching any character).  `$` is
modelled as end of string.  Because `/` is not a digit, the digit run is
determined; the function returns the two capture groups on a match. -/
def grammarAMatchL : List Char → Option (List Char × List Char)
  | a :: b :: _ :: rest =>
    if a = '1' ∧ b = '0' then
      let ds := rest.takeWhile Char.isDigit
      if 4 ≤ ds.length ∧ ds.length ≤ 9 then
        match rest.dropWhile Char.isDigit with
        | c :: suffix => if c = '/' then grammarASuffix suffix else none
        | [] => none
      else none
    else none
  | _ => none

/-- The `re.sub` of `RPFLinkEjErEmmMsb._generate_link`: replace a matching
doi by its two suffix groups concatenated; a non-matching doi is returned
unchanged (`re.sub` semantics). -/
def grammarASub (doi : String) : String :=
  match grammarAMatchL doi.data with
  | some (g1, g2) => String.mk (g1 ++ g2)
  | none => doi

/-- `RPFLinkEjErEmmMsb._generate_link`: the fixed base path with query
parameters `doi=<full doi>` and `file=<suffix token>.reviewer_comments.pdf`. -/
def ejErEmmMsbGenerateLink (doi : String) : String :=
  "https://www.embopress.org/action/downloadSupplement?doi=" ++ doi ++
    "&file=" ++ grammarASub doi ++ ".reviewer_comments.pdf"

/-- `utils.resolve`: GET `https://doi.org/<doi>` (recorded in the trace);
an unreachable network raises; Python's truthiness test on
`response.status_code` keeps the final URL exactly when the code is
non-zero. -/
def resolveDoi (resolveO : String → Option ResolveResp) (doi : String) :
    Except PyError String × List String :=
  let url := "https://doi.org/" ++ doi
  match resolveO doi with
  | none => (Except.error PyError.connectionError, [url])
  | some r => (Except.ok (if r.status_code ≠ 0 then r.url else ""), [url])

/-- One attempt of `re.search(r'\d+/\d+/e\d+', s)` anchored at the current
position: a digit run, `/`, a digit run, `/e`, a digit run.  Since `/`
and `e` are not digits, greedy matching is deterministic. -/
def matchVIE (l : List Char) : Option (List Char) :=
  let d1 := l.takeWhile Char.isDigit
  match d1, l.dropWhile Char.isDigit with
  | _ :: _, '/' :: r1 =>
    let d2 := r1.takeWhile Char.isDigit
    match d2, r1.dropWhile Char.isDigit with
    | _ :: _, '/' :: 'e' :: r2 =>
      let d3 := r2.takeWhile Char.isDigit
      match d3 with
      | _ :: _ => some (d1 ++ '/' :: d2 ++ '/' :: 'e' :: d3)
      | [] => none
    | _, _ => none
  | _, _ => none

/-- `re.search(r'\d+/\d+/e\d+', s)`: leftmost match, scanning positions
left to right. -/
def searchVIE : List Char → Option (List Char)
  | [] => none
  | c :: rest =>
    match matchVIE (c :: rest) with
    | some m => some m
    | none => searchVIE rest

/-- `RPFLinkLSA._generate_link`: resolve the doi to its landing page, then
extract the `volume/issue/eLocator` segment.  When `re.search` finds no
match it returns `None` and the `.group(0)` call raises
`AttributeError`. -/
def lsaGenerateLink (resolveO : String → Option ResolveResp) (doi : String) :
    Except PyError String × List String :=
  match resolveDoi resolveO doi with
  | (Except.error e, tr) => (Except.error e, tr)
  | (Except.ok resolved, tr) =>
    match searchVIE resolved.data with
    | none => (Except.error PyError.attributeError, tr)
    | some m =>
      (Except.ok ("https://www.life-science-alliance.org/content/lsa/" ++
        String.mk m ++ ".reviewer-comments.pdf"), tr)

/-- `RPFLinkEjErEmmMsb.__call__`: generate the Grammar A link (no network
access) and probe it. -/
def rpfLinkEjErEmmMsb (get : String → Option HttpResp) (doi : String) :
    Except PyError String × List String :=
  rpfTest get (ejErEmmMsbGenerateLink doi)

/-- `RPFLinkLSA.__call__`: generate the Grammar B link (resolving the doi
over the network) and probe it; exceptions from generation propagate. -/
def rpfLinkLSA (get : String → Option HttpResp)
    (resolveO : String → Option ResolveResp) (doi : String) :
    Except PyError String × List String :=
  match lsaGenerateLink resolveO doi with
  | (Except.error e, tr) => (Except.error e, tr)
  | (Except.ok link, tr) =>
    let probed := rpfTest get link
    (probed.1, tr ++ probed.2)

/-- The four journal names routed to Grammar A. -/
def grammarAJournals : List String :=
  ["the embo journal", "embo reports", "embo molecular medicine",
   "molecular systems biology"]

/-- `rpf.generate_rpf_link`: normalize the journal name, dispatch to the
matching grammar, or return the empty string immediately for any other
journal. -/
def generate_rpf_link (get : String → Option HttpResp)
    (resolveO : String → Option ResolveResp) (journal doi : String) :
    Except PyError String × List String :=
  let j := pyLower (pyStrip journal)
  if j ∈ grammarAJournals then rpfLinkEjErEmmMsb get doi
  else if j = "life science alliance" then rpfLinkLSA get resolveO doi
  else (Except.ok "", [])

/-! ## `biorxiv.py`: paginated discovery and per-item enrichment -/

/-- One response of the publisher listing endpoint, as `retrieve` reads
it: the HTTP status, `messages[0]` (its `status`, `count` and `total`,
the latter two through `int(...)`), and the `collection` items. -/
structure Page where
  status_code : Nat
  msgStatus : String
  count : Int
  total : Int
  collection : List Preprint

/-- The while-loop of `biorxiv.retrieve`, with explicit fuel.  The
listing endpoint is an oracle from the cursor value to the page (the
publisher prefix and date range are fixed for one call).  On a 200/"ok"
page the items are appended, the cursor advances by the page's `count`,
and the loop continues exactly when `total - count > 0`; any other page
ends the loop with the results collected so far.  `none` means the fuel
ran out before the loop ended. -/
def retrieveAux (pages : Int → Page) : Nat → Int → Option (List Preprint)
  | 0, _ => none
  | fuel + 1, cursor =>
    let pg := pages cursor
    if pg.status_code = 200 then
      if pg.msgStatus = "ok" then
        if pg.total - pg.count > 0 then
          (retrieveAux pages fuel (cursor + pg.count)).map
            (fun rest => pg.collection ++ rest)
        else
          some pg.collection
      else some []
    else some []

/-- `biorxiv.retrieve` starting from cursor 0. -/
def retrieve (pages : Int → Page) (fuel : Nat) : Option (List Preprint) :=
  retrieveAux pages fuel 0

/-- The cursor after `n` successful pages, starting from `c`: each page
advances the cursor by its own `count`. -/
def iterCursorFrom (pages : Int → Page) : Int → Nat → Int
  | c, 0 => c
  | c, n + 1 => iterCursorFrom pages (c + (pages c).count) n

/-- A page on which the `retrieve` loop ends: a non-200 response, a first
message whose status is not "ok", or `total - count <= 0`. -/
def stopsPage (pg : Page) : Prop :=
  pg.status_code ≠ 200 ∨ pg.msgStatus ≠ "ok" ∨ pg.total - pg.count ≤ 0

instance (pg : Page) : Decidable (stopsPage pg) := by
  unfold stopsPage
  infer_instance

/-- One item of the detail endpoint's `collection`. -/
structure DetailItem where
  author_corresponding : String := ""
  author_corresponding_institution : String := ""

/-- One response of the detail endpoint, as `biorxiv.details` reads it. -/
structure DetailResp where
  status_code : Nat
  collection : List DetailItem := []

/-- The loop body of `biorxiv.details` for one preprint, once its
`requests.get` has returned a response: on a 200 response, fill the
corresponding-author fields from the first collection item, or with
empty strings when the collection is empty; on any other status leave
the preprint untouched (and move on). -/
def detailsStep (resp : DetailResp) (p : Preprint) : Preprint :=
  if resp.status_code = 200 then
    match resp.collection with
    | first :: _ =>
      { p with corr_author := some first.author_corresponding,
               institution := some first.author_corresponding_institution }
    | [] => { p with corr_author := some "", institution := some "" }
  else p

/-- `biorxiv.details`: one GET per preprint, in loop order.  The detail
endpoint is an oracle from the doi to `Option DetailResp`; `none` models
an unreachable network, on which the catch-free `requests.get` raises
`ConnectionError`: the loop is aborted, the remaining preprints are
never looked up, and the call returns no list at all. -/
def details (detailO : String → Option DetailResp) :
    List Preprint → Except PyError (List Preprint)
  | [] => Except.ok []
  | p :: ps =>
    match detailO p.biorxiv_doi with
    | none => Except.error PyError.connectionError
    | some resp =>
      match details detailO ps with
      | Except.error e => Except.error e
      | Except.ok rest => Except.ok (detailsStep resp p :: rest)

/-! ## Helper lemmas -/

lemma existsDoc_iff (g : List Entry) (d : String) :
    existsDoc g d = true ↔ ∃ e ∈ g, e.preprint.biorxiv_doi = d := by
  simp [existsDoc, find_one, List.find?_isSome, beq_iff_eq]

lemma countDoi_cons (a : Entry) (g : List Entry) (d : String) :
    countDoi (a :: g) d =
      (if a.preprint.biorxiv_doi = d then 1 else 0) + countDoi g d := by
  by_cases h : a.preprint.biorxiv_doi = d
  · simp [countDoi, List.filter_cons, h, Nat.add_comm]
  · simp [countDoi, List.filter_cons, h]

lemma countDoi_append_single (g : List Entry) (e : Entry) (d : String) :
    countDoi (g ++ [e]) d =
      countDoi g d + (if e.preprint.biorxiv_doi = d then 1 else 0) := by
  by_cases h : e.preprint.biorxiv_doi = d <;>
    simp [countDoi, List.filter_append, List.filter_cons, h]

lemma countDoi_eq_zero_iff (g : List Entry) (d : String) :
    countDoi g d = 0 ↔ ∀ e ∈ g, e.preprint.biorxiv_doi ≠ d := by
  simp [countDoi, List.length_eq_zero, List.filter_eq_nil_iff]

lemma takeWhile_append_cons {p : Char → Bool} {l : List Char} {c : Char}
    (r : List Char) (hl : ∀ a ∈ l, p a = true) (hc : p c = false) :
    (l ++ c :: r).takeWhile p = l ∧ (l ++ c :: r).dropWhile p = c :: r := by
  induction l with
  | nil => simp [List.takeWhile_cons, List.dropWhile_cons, hc]
  | cons a l ih =>
    have ha : p a = true := hl a (by simp)
    have := ih (fun x hx => hl x (by simp [hx]))
    simp [List.takeWhile_cons, List.dropWhile_cons, ha, this.1, this.2]

lemma dbInsert_preserves (g : List Entry) (pr : Preprint) (pa : Published)
    (po : HypoPost) (d : String) (h : existsDoc g d = true)
    (hne : pr.biorxiv_doi ≠ d) :
    existsDoc (dbInsert g pr pa po).2 d = true ∧
    countDoi (dbInsert g pr pa po).2 d = countDoi g d := by
  unfold dbInsert
  by_cases hex : existsDoc g pr.biorxiv_doi = true
  · simp [hex, h]
  · rw [if_neg hex]
    constructor
    · rcases (existsDoc_iff g d).mp h with ⟨e, he, hed⟩
      exact (existsDoc_iff _ d).mpr ⟨e, by simp [he], hed⟩
    · rw [countDoi_append_single]
      simp [hne]

lemma traxivUpdateStep_preserves (mkPaper : String → Published)
    (resolveO : String → String) (mkPost : Preprint → Published → HypoPost)
    (journals : List String) (d : String)
    (st : List Entry × List NotUpdated) (p : Preprint)
    (h : existsDoc st.1 d = true) :
    existsDoc (traxivUpdateStep mkPaper resolveO mkPost journals st p).1 d = true ∧
    countDoi (traxivUpdateStep mkPaper resolveO mkPost journals st p).1 d =
      countDoi st.1 d := by
  by_cases h1 : existsDoc st.1 p.biorxiv_doi = true
  · simp [traxivUpdateStep, h1, h]
  · by_cases h2 : (mkPaper p.published_doi).rpf ≠ "" ∧
        (mkPaper p.published_doi).journal ∈ journals
    · have hdoi : p.biorxiv_doi ≠ d := fun hd => h1 (hd ▸ h)
      have key := dbInsert_preserves st.1
        { p with biorxiv_url := resolveO p.biorxiv_doi }
        (mkPaper p.published_doi)
        (mkPost { p with biorxiv_url := resolveO p.biorxiv_doi }
          (mkPaper p.published_doi)) d h (by simpa using hdoi)
      simpa [traxivUpdateStep, h1, h2] using key
    · simp [traxivUpdateStep, h1, h2, h]

lemma traxivUpdate_foldl_preserves (mkPaper : String → Published)
    (resolveO : String → String) (mkPost : Preprint → Published → HypoPost)
    (journals : List String) (d : String) :
    ∀ (ps : List Preprint) (st : List Entry × List NotUpdated),
      existsDoc st.1 d = true →
      existsDoc (ps.foldl (traxivUpdateStep mkPaper resolveO mkPost journals) st).1 d
          = true ∧
      countDoi (ps.foldl (traxivUpdateStep mkPaper resolveO mkPost journals) st).1 d
          = countDoi st.1 d := by
  intro ps
  induction ps with
  | nil => intro st h; exact ⟨h, rfl⟩
  | cons p ps ih =>
    intro st h
    have hstep := traxivUpdateStep_preserves mkPaper resolveO mkPost journals d st p h
    have hrest := ih (traxivUpdateStep mkPaper resolveO mkPost journals st p) hstep.1
    exact ⟨hrest.1, by rw [List.foldl_cons, hrest.2, hstep.2]⟩

/-- C1: at most one reconciliation entry per preprint doi per group.
When a document with the same preprint doi already exists, `insert` is a
no-op: it returns the null sentinel, leaves the collection (and hence the
stored entry found for that doi) unchanged even when called with
different draft content; and a whole `Traxiv.update` pass over any list
of discovered preprints never changes the number of stored entries for a
doi that is already present. -/
theorem dbInsert_noop_and_update_no_second_entry
    (g : List Entry) (prepr : Preprint) (paper : Published) (post : HypoPost)
    (mkPaper : String → Published) (resolveO : String → String)
    (mkPost : Preprint → Published → HypoPost) (journals : List String)
    (ps : List Preprint)
    (h : existsDoc g prepr.biorxiv_doi = true) :
    dbInsert g prepr paper post = (none, g) ∧
    find_one (dbInsert g prepr paper post).2 prepr.biorxiv_doi =
      find_one g prepr.biorxiv_doi ∧
    countDoi (traxivUpdate mkPaper resolveO mkPost journals g ps).1
        prepr.biorxiv_doi = countDoi g prepr.biorxiv_doi := by
  have hins : dbInsert g prepr paper post = (none, g) := by
    simp [dbInsert, h]
  refine ⟨hins, by rw [hins], ?_⟩
  exact (traxivUpdate_foldl_preserves mkPaper resolveO mkPost journals
    prepr.biorxiv_doi ps (g, []) h).2

lemma postRun_trace_go (oracle : Entry → PostResp) :
    ∀ (rows : List Entry) (st : List Entry × Nat × List (String × String)),
      (rows.foldl (postStep oracle) st).2.2 = st.2.2 ++ rows.map
        (fun row => (row.preprint.biorxiv_doi,
          if (oracle row).status_code == 200 then (oracle row).jsonId else "")) := by
  intro rows
  induction rows with
  | nil => intro st; simp
  | cons r rows ih =>
    intro st
    rw [List.foldl_cons, ih]
    simp [postStep]

lemma postRun_count_go (oracle : Entry → PostResp) :
    ∀ (rows : List Entry) (st : List Entry × Nat × List (String × String)),
      (rows.foldl (postStep oracle) st).2.1 = st.2.1 + rows.length := by
  intro rows
  induction rows with
  | nil => intro st; simp
  | cons r rows ih =>
    intro st
    rw [List.foldl_cons, ih]
    simp [postStep]
    omega

lemma unpub_mem_updateDoc_empty (d : String) :
    ∀ (g : List Entry) (e : Entry), e ∈ (not_yet_posted g).1 →
      e ∈ (not_yet_posted (updateDoc g d "")).1 := by
  intro g
  induction g with
  | nil => intro e he; simp [not_yet_posted] at he
  | cons a rest ih =>
    intro e he
    simp only [not_yet_posted, List.filter_cons] at he ⊢
    by_cases ha : (a.preprint.biorxiv_doi == d) = true
    · rw [updateDoc, if_pos ha]
      by_cases hpa : (a.annot.hypothesis_id == "") = true
      · rw [if_pos hpa] at he
        have haid : a.annot.hypothesis_id = "" := by simpa using hpa
        have : ({ a with annot := { a.annot with hypothesis_id := "" } } : Entry)
            = a := by
          rw [← haid]
        rw [this, List.filter_cons, if_pos hpa]
        rcases List.mem_cons.mp he with rfl | hrest
        · exact List.mem_cons_self _ _
        · exact List.mem_cons_of_mem _ hrest
      · rw [if_neg hpa] at he
        have haid : a.annot.hypothesis_id ≠ "" := by simpa using hpa
        rw [List.filter_cons]
        by_cases hpa2 : (({ a with annot := { a.annot with hypothesis_id := "" }
            } : Entry).annot.hypothesis_id == "") = true
        · rw [if_pos hpa2]
          exact List.mem_cons_of_mem _ he
        · rw [if_neg hpa2]
          exact he
    · rw [updateDoc, if_neg ha, List.filter_cons]
      by_cases hpa : (a.annot.hypothesis_id == "") = true
      · rw [if_pos hpa] at he ⊢
        rcases List.mem_cons.mp he with rfl | hrest
        · exact List.mem_cons_self _ _
        · exact List.mem_cons_of_mem _ (ih e hrest)
      · rw [if_neg hpa] at he ⊢
        exact ih e he

/-- C3 counterexample: a store with one unpublished entry, and a publish
oracle that always answers HTTP 500.  After the publish pass the entry is
still returned by `not_yet_posted` (its publication id was set to the
empty string, which is exactly what `not_yet_posted` selects), so the
entry IS left for a retry on a later run, contrary to the claim. -/
theorem post_failed_entry_left_unpublished :
    (not_yet_posted ((traxivPost
        (fun _ => { status_code := 500, jsonId := "", text := "rejected" })
        [⟨{ biorxiv_doi := "10.1101/002" }, {}, {}⟩]).1)).1 =
      [⟨{ biorxiv_doi := "10.1101/002" }, {}, {}⟩] := by
  decide

/-- C3 amended: during the publish step, for every entry read from
`not_yet_posted`, exactly one `db.update` (set-published) call is made,
with the response's id on HTTP 200 and with the empty string otherwise
(first conjunct: the set-published call trace is exactly one call per
unpublished row, in order); however, a set-published call with the empty
string leaves every unpublished entry unpublished, so a failed publish
leaves the entry eligible for retry on a later run rather than removing
it from the retry set (second conjunct). -/
theorem post_one_set_published_per_entry (oracle : Entry → PostResp)
    (g : List Entry) :
    (traxivPost oracle g).2.2 = (not_yet_posted g).1.map
      (fun row => (row.preprint.biorxiv_doi,
        if (oracle row).status_code == 200 then (oracle row).jsonId else "")) ∧
    (∀ (g2 : List Entry) (d : String) (e : Entry), e ∈ (not_yet_posted g2).1 →
      e ∈ (not_yet_posted (updateDoc g2 d "")).1) := by
  constructor
  · unfold traxivPost
    rw [postRun_trace_go]
    simp
  · intro g2 d e he
    exact unpub_mem_updateDoc_empty d g2 e he

/-- C10: the integer returned by the publish step (reported as the number
of posted records) equals the number of entries yielded by
`not_yet_posted` at the start of the run, for every publish oracle —
i.e. every attempted publish is counted, including those answered with a
non-200 status. -/
theorem post_reports_all_attempts (oracle : Entry → PostResp)
    (g : List Entry) :
    (traxivPost oracle g).2.1 = (not_yet_posted g).2 := by
  unfold traxivPost
  rw [postRun_count_go]
  simp [not_yet_posted]

/-- Concrete data for witnesses: a preprint, its paper and two drafts. -/
def wPre : Preprint := { biorxiv_doi := "10.1101/001", published_doi := "10.15252/embj.1" }

def wPaper : Published :=
  { doi := "10.15252/embj.1", journal := "The EMBO Journal", rpf := "https://rpf" }

def wPostA : HypoPost := { annotation_text := "first draft" }

def wPostB : HypoPost := { annotation_text := "second draft" }

def wStore : List Entry := [⟨wPre, wPaper, wPostA⟩]

def wMkPaper : String → Published := fun _ => wPaper

def wResolve : String → String := fun _ => ""

def wMkPost : Preprint → Published → HypoPost := fun _ _ => wPostB

/-- C1 witness: a second insert for the same preprint doi with different
draft content is a no-op, and an update pass over a rediscovered preprint
creates no second entry. -/
theorem dbInsert_noop_and_update_no_second_entry_witness :
    existsDoc wStore wPre.biorxiv_doi = true ∧
    (dbInsert wStore wPre wPaper wPostB = (none, wStore) ∧
     find_one (dbInsert wStore wPre wPaper wPostB).2 wPre.biorxiv_doi =
       find_one wStore wPre.biorxiv_doi ∧
     countDoi (traxivUpdate wMkPaper wResolve wMkPost ["The EMBO Journal"]
         wStore [wPre]).1 wPre.biorxiv_doi = countDoi wStore wPre.biorxiv_doi) :=
  ⟨by decide,
   dbInsert_noop_and_update_no_second_entry wStore wPre wPaper wPostB
     wMkPaper wResolve wMkPost ["The EMBO Journal"] [wPre] (by decide)⟩

lemma unpub_updateDoc_ne (d id : String) (hid : id ≠ "") :
    ∀ (g : List Entry), countDoi g d ≤ 1 →
      ∀ e ∈ (not_yet_posted (updateDoc g d id)).1, e.preprint.biorxiv_doi ≠ d := by
  intro g
  induction g with
  | nil =>
    intro _ e he
    simp [not_yet_posted, updateDoc] at he
  | cons a rest ih =>
    intro huniq e he
    by_cases ha : (a.preprint.biorxiv_doi == d) = true
    · have had : a.preprint.biorxiv_doi = d := by simpa using ha
      have hzero : countDoi rest d = 0 := by
        rw [countDoi_cons, if_pos had] at huniq
        omega
      rw [updateDoc, if_pos ha] at he
      simp only [not_yet_posted, List.filter_cons] at he
      have hida : (id == "") = false := by simpa using hid
      rw [if_neg (by simp [hida])] at he
      have := List.mem_filter.mp he
      exact (countDoi_eq_zero_iff rest d).mp hzero e this.1
    · have had : a.preprint.biorxiv_doi ≠ d := by simpa using ha
      rw [updateDoc, if_neg ha] at he
      simp only [not_yet_posted, List.filter_cons] at he
      by_cases hpa : (a.annot.hypothesis_id == "") = true
      · rw [if_pos hpa] at he
        rcases List.mem_cons.mp he with rfl | hrest
        · exact had
        · have huniq2 : countDoi rest d ≤ 1 := by
            rw [countDoi_cons] at huniq
            omega
          exact ih huniq2 e hrest
      · rw [if_neg hpa] at he
        have huniq2 : countDoi rest d ≤ 1 := by
          rw [countDoi_cons] at huniq
          omega
        exact ih huniq2 e he

/-- C4: `not_yet_posted` returns exactly the stored entries whose
publication id is the empty string (first conjunct, a membership
characterization), together with their count (second conjunct); and once
`db.update` (set-published) is called with a non-empty id for a doi that
has at most one stored entry (the C1 invariant), no entry for that doi
appears in any later `not_yet_posted` result (third conjunct). -/
theorem find_unpublished_exact_and_set_published_excludes
    (g : List Entry) (d id : String) (hid : id ≠ "")
    (huniq : countDoi g d ≤ 1) :
    (∀ e, e ∈ (not_yet_posted g).1 ↔ e ∈ g ∧ e.annot.hypothesis_id = "") ∧
    (not_yet_posted g).2 = (not_yet_posted g).1.length ∧
    (∀ e ∈ (not_yet_posted (updateDoc g d id)).1, e.preprint.biorxiv_doi ≠ d) := by
  refine ⟨?_, rfl, ?_⟩
  · intro e
    simp [not_yet_posted, List.mem_filter]
  · exact unpub_updateDoc_ne d id hid g huniq

/-- C4 witness: a one-entry store; after set-published with id "abc" the
entry is gone from the unpublished set. -/
theorem find_unpublished_exact_and_set_published_excludes_witness :
    ("abc" ≠ "") ∧ countDoi wStore wPre.biorxiv_doi ≤ 1 ∧
    ((∀ e, e ∈ (not_yet_posted wStore).1 ↔
        e ∈ wStore ∧ e.annot.hypothesis_id = "") ∧
     (not_yet_posted wStore).2 = (not_yet_posted wStore).1.length ∧
     (∀ e ∈ (not_yet_posted (updateDoc wStore wPre.biorxiv_doi "abc")).1,
        e.preprint.biorxiv_doi ≠ wPre.biorxiv_doi)) :=
  ⟨by decide, by decide,
   find_unpublished_exact_and_set_published_excludes wStore wPre.biorxiv_doi
     "abc" (by decide) (by decide)⟩

/-- Concrete oracles for witnesses and counterexamples: a dead network. -/
def wNoHttp : String → Option HttpResp := fun _ => none

def wNoResolve : String → Option ResolveResp := fun _ => none

/-- A network on which every GET answers with a PDF content type. -/
def wPdfHttp : String → Option HttpResp :=
  fun _ => some { contentType := some "application/pdf" }

/-- A network on which every GET answers with an HTML content type. -/
def wHtmlHttp : String → Option HttpResp :=
  fun _ => some { contentType := some "text/html" }

/-- C7: for every journal name that, after trimming and lowercasing, is
not one of the five allow-listed names, `generate_rpf_link` returns the
empty string with an empty request trace: no link is probed and no
network call of any kind is issued. -/
theorem generate_rpf_link_empty_of_unknown_journal
    (get : String → Option HttpResp) (resolveO : String → Option ResolveResp)
    (journal doi : String)
    (h : pyLower (pyStrip journal) ∉ grammarAJournals ++ ["life science alliance"]) :
    generate_rpf_link get resolveO journal doi = (Except.ok "", []) := by
  have h1 : pyLower (pyStrip journal) ∉ grammarAJournals :=
    fun hm => h (List.mem_append_left _ hm)
  have h2 : pyLower (pyStrip journal) ≠ "life science alliance" :=
    fun he => h (List.mem_append_right _ (by simp [he]))
  simp [generate_rpf_link, h1, h2]

/-- C7 witness: the journal "Nature" is rejected without a network call. -/
theorem generate_rpf_link_empty_of_unknown_journal_witness :
    (pyLower (pyStrip "Nature") ∉ grammarAJournals ++ ["life science alliance"]) ∧
    generate_rpf_link wNoHttp wNoResolve "Nature" "10.15252/embj.1" =
      (Except.ok "", []) :=
  ⟨by decide,
   generate_rpf_link_empty_of_unknown_journal wNoHttp wNoResolve "Nature"
     "10.15252/embj.1" (by decide)⟩

/-- C8: for every non-empty candidate link whose GET probe yields a
response carrying a content-type, `_test` issues exactly one GET to the
link (the trace), returns the link precisely when the content type
contains "application/pdf", returns the link only if it is a PDF, and
returns the empty string whenever the content type is not a PDF. -/
theorem rpfTest_probes_and_filters (get : String → Option HttpResp)
    (link : String) (r : HttpResp) (ct : String)
    (hlink : link ≠ "") (hget : get link = some r)
    (hct : r.contentType = some ct) :
    (rpfTest get link).2 = [link] ∧
    (rpfTest get link).1 = Except.ok (if pdfIn ct then link else "") ∧
    ((rpfTest get link).1 = Except.ok link → pdfIn ct = true) ∧
    (pdfIn ct = false → (rpfTest get link).1 = Except.ok "") := by
  have hbase : rpfTest get link = (Except.ok (if pdfIn ct then link else ""), [link]) := by
    simp [rpfTest, hlink, hget, hct]
  refine ⟨by rw [hbase], by rw [hbase], ?_, ?_⟩
  · intro hres
    rw [hbase] at hres
    cases hp : pdfIn ct with
    | true => rfl
    | false =>
      rw [hp] at hres
      simp only [if_neg Bool.false_ne_true, Except.ok.injEq] at hres
      exact absurd hres.symm hlink
  · intro hp
    rw [hbase, hp]
    simp

/-- C8 witness: a live but non-PDF response makes the probe reject the
candidate link. -/
theorem rpfTest_probes_and_filters_witness :
    ("https://example.org/file" ≠ "") ∧
    wHtmlHttp "https://example.org/file" = some { contentType := some "text/html" } ∧
    (HttpResp.mk (some "text/html")).contentType = some "text/html" ∧
    ((rpfTest wHtmlHttp "https://example.org/file").2 = ["https://example.org/file"] ∧
     (rpfTest wHtmlHttp "https://example.org/file").1 =
       Except.ok (if pdfIn "text/html" then "https://example.org/file" else "") ∧
     ((rpfTest wHtmlHttp "https://example.org/file").1 =
        Except.ok "https://example.org/file" → pdfIn "text/html" = true) ∧
     (pdfIn "text/html" = false →
       (rpfTest wHtmlHttp "https://example.org/file").1 = Except.ok "")) :=
  ⟨by decide, rfl, rfl,
   rpfTest_probes_and_filters wHtmlHttp "https://example.org/file"
     { contentType := some "text/html" } "text/html" (by decide) rfl rfl⟩

/-- C2 counterexample: with the network unreachable, the GET probe inside
`_test` raises `ConnectionError` (there is no try/except anywhere in
`rpf.py`), so `generate_rpf_link` for an allow-listed journal propagates
an uncaught exception instead of returning a URL or the empty string. -/
theorem generate_rpf_link_raises_on_network_failure :
    (generate_rpf_link wNoHttp wNoResolve "The EMBO Journal"
        "10.15252/embj.2019102578").1 =
      Except.error PyError.connectionError := by
  rfl

/-- Every GET on this network yields a response with a Content-Type
header (the situation in which the probe cannot raise). -/
def probeOk (get : String → Option HttpResp) (u : String) : Bool :=
  match get u with
  | none => false
  | some r => r.contentType.isSome

/-- The doi.org resolution for this doi succeeds and the resulting
landing-page string contains a volume/issue/eLocator segment (the
situation in which the Grammar B generation cannot raise). -/
def lsaOk (resolveO : String → Option ResolveResp) (doi : String) : Bool :=
  match resolveO doi with
  | none => false
  | some r => (searchVIE (if r.status_code ≠ 0 then r.url else "").data).isSome

lemma rpfTest_ok_of_probeOk (get : String → Option HttpResp) (link : String)
    (hget : ∀ u, probeOk get u = true) :
    ((rpfTest get link).1).toOption.isSome = true := by
  by_cases hl : link = ""
  · simp [rpfTest, hl, Except.toOption]
  · have hp := hget link
    unfold probeOk at hp
    cases hg : get link with
    | none => rw [hg] at hp; simp at hp
    | some r =>
      rw [hg] at hp
      simp at hp
      cases hc : r.contentType with
      | none => rw [hc] at hp; simp at hp
      | some ct => simp [rpfTest, hl, hg, hc, Except.toOption]

/-- C2 corrected: `generate_rpf_link` terminates normally with a URL or
the empty string for every journal and DOI PROVIDED that every GET probe
it issues is answered with a response carrying a Content-Type header,
and that, when the journal routes to Grammar B, the doi.org resolution
succeeds and the landing page contains the volume/issue/eLocator
pattern.  (Without those provisos the code raises: see the
counterexample for the probe, and the `AttributeError` branch of
`lsaGenerateLink` for an unmatched landing page.) -/
theorem generate_rpf_link_ok_when_reachable (get : String → Option HttpResp)
    (resolveO : String → Option ResolveResp) (journal doi : String)
    (hget : ∀ u, probeOk get u = true)
    (hlsa : pyLower (pyStrip journal) = "life science alliance" →
      lsaOk resolveO doi = true) :
    ((generate_rpf_link get resolveO journal doi).1).toOption.isSome = true := by
  by_cases hA : pyLower (pyStrip journal) ∈ grammarAJournals
  · have : generate_rpf_link get resolveO journal doi =
        rpfTest get (ejErEmmMsbGenerateLink doi) := by
      simp [generate_rpf_link, hA, rpfLinkEjErEmmMsb]
    rw [this]
    exact rpfTest_ok_of_probeOk get _ hget
  · by_cases hB : pyLower (pyStrip journal) = "life science alliance"
    · have hres := hlsa hB
      unfold lsaOk at hres
      cases hr : resolveO doi with
      | none => rw [hr] at hres; simp at hres
      | some r =>
        rw [hr] at hres
        simp at hres
        cases hs : searchVIE (if r.status_code = 0 then "" else r.url).data with
        | none => rw [hs] at hres; simp at hres
        | some m =>
          have h1 : resolveDoi resolveO doi =
              (Except.ok (if r.status_code ≠ 0 then r.url else ""),
               ["https://doi.org/" ++ doi]) := by
            simp [resolveDoi, hr]
          have h2 : lsaGenerateLink resolveO doi =
              (Except.ok ("https://www.life-science-alliance.org/content/lsa/" ++
                String.mk m ++ ".reviewer-comments.pdf"),
               ["https://doi.org/" ++ doi]) := by
            unfold lsaGenerateLink
            rw [h1]
            simp [hs]
          have h3 : generate_rpf_link get resolveO journal doi =
              rpfLinkLSA get resolveO doi := by
            have hA2 : ("life science alliance" : String) ∉ grammarAJournals := by
              decide
            simp [generate_rpf_link, hB, hA2]
          rw [h3]
          unfold rpfLinkLSA
          rw [h2]
          exact rpfTest_ok_of_probeOk get _ hget
    · simp [generate_rpf_link, hA, hB, Except.toOption]

/-- C2 witness: with every probe answered by a PDF response, the Grammar
A path returns normally. -/
theorem generate_rpf_link_ok_when_reachable_witness :
    (∀ u, probeOk wPdfHttp u = true) ∧
    (pyLower (pyStrip "The EMBO Journal") = "life science alliance" →
      lsaOk wNoResolve "10.15252/embj.2019102578" = true) ∧
    ((generate_rpf_link wPdfHttp wNoResolve "The EMBO Journal"
        "10.15252/embj.2019102578").1).toOption.isSome = true :=
  ⟨fun _ => rfl, fun h => absurd h (by decide),
   generate_rpf_link_ok_when_reachable wPdfHttp wNoResolve "The EMBO Journal"
     "10.15252/embj.2019102578" (fun _ => rfl) (fun h => absurd h (by decide))⟩

lemma retrieveAux_succ (pages : Int → Page) (fuel : Nat) (c : Int) :
    retrieveAux pages (fuel + 1) c =
      if (pages c).status_code = 200 then
        if (pages c).msgStatus = "ok" then
          if (pages c).total - (pages c).count > 0 then
            (retrieveAux pages fuel (c + (pages c).count)).map
              (fun rest => (pages c).collection ++ rest)
          else some (pages c).collection
        else some []
      else some [] := rfl

lemma retrieveAux_isSome_of_stopsPage (pages : Int → Page) (fuel : Nat)
    (c : Int) (h : stopsPage (pages c)) :
    (retrieveAux pages (fuel + 1) c).isSome = true := by
  rw [retrieveAux_succ]
  by_cases h200 : (pages c).status_code = 200
  · by_cases hok : (pages c).msgStatus = "ok"
    · have hrem : ¬ ((pages c).total - (pages c).count > 0) := by
        rcases h with h | h | h
        · exact absurd h200 h
        · exact absurd hok h
        · omega
      rw [if_pos h200, if_pos hok, if_neg hrem]
      rfl
    · rw [if_pos h200, if_neg hok]
      rfl
  · rw [if_neg h200]
    rfl

lemma retrieveAux_isSome_of_stops (pages : Int → Page) :
    ∀ (n : Nat) (c : Int), stopsPage (pages (iterCursorFrom pages c n)) →
      (retrieveAux pages (n + 1) c).isSome = true := by
  intro n
  induction n with
  | zero =>
    intro c h
    simp only [iterCursorFrom] at h
    exact retrieveAux_isSome_of_stopsPage pages 0 c h
  | succ n ih =>
    intro c h
    by_cases hstop : stopsPage (pages c)
    · exact retrieveAux_isSome_of_stopsPage pages (n + 1) c hstop
    · unfold stopsPage at hstop
      push_neg at hstop
      obtain ⟨h200, hok, hrem⟩ := hstop
      have h2 : stopsPage (pages (iterCursorFrom pages (c + (pages c).count) n)) := by
        simpa [iterCursorFrom] using h
      have h3 := ih (c + (pages c).count) h2
      rw [retrieveAux_succ, if_pos h200, if_pos hok, if_pos (by omega)]
      simpa using h3

/-- C5: pagination terminates.  The loop advances the cursor by each
page's `count` (that is what `iterCursorFrom` records) and stops on the
first page with `total - count <= 0`, a non-200 response, or a first
message whose status is not "ok".  Whenever some `n`-th visited cursor
carries such a stopping page, `retrieve` run with fuel `n + 1` completes
(`isSome`), returning a finite list — the partial results collected so
far, not an error. -/
theorem retrieve_terminates_of_stopping_page (pages : Int → Page) (n : Nat)
    (h : stopsPage (pages (iterCursorFrom pages 0 n))) :
    (retrieve pages (n + 1)).isSome = true :=
  retrieveAux_isSome_of_stops pages n 0 h

/-- A listing endpoint for the witness: one page holding the whole
interval (`count = total = 2`). -/
def wPages : Int → Page :=
  fun _ => { status_code := 200, msgStatus := "ok", count := 2, total := 2,
             collection := [] }

/-- C5 witness: a single page with `total - count = 0` ends the loop after
one request. -/
theorem retrieve_terminates_of_stopping_page_witness :
    stopsPage (wPages (iterCursorFrom wPages 0 0)) ∧
    (retrieve wPages 1).isSome = true :=
  ⟨by decide, retrieve_terminates_of_stopping_page wPages 0 (by decide)⟩

/-- A detail endpoint that is unreachable for the first witness doi but
answers for every other doi. -/
def wDetailFail : String → Option DetailResp :=
  fun d => if d = "10.1101/004" then none
    else some { status_code := 200, collection := [] }

/-- C9 counterexample: two preprints; the first item's detail GET hits an
unreachable network, so the catch-free `requests.get` of
`biorxiv.details` raises `ConnectionError` and the whole enrichment call
aborts: no list is returned, and the second preprint — whose own lookup
would have succeeded — is never processed.  One item's lookup failure
therefore DOES abort the remaining items, contrary to the claim's
no-abort clause. -/
theorem details_aborts_on_network_failure :
    details wDetailFail
      [{ biorxiv_doi := "10.1101/004" }, { biorxiv_doi := "10.1101/005" }] =
      Except.error PyError.connectionError := rfl

lemma details_ok_elim (detailO : String → Option DetailResp) :
    ∀ (ps qs : List Preprint), details detailO ps = Except.ok qs →
      qs.length = ps.length ∧
      ∀ i : Nat, qs[i]? = (ps[i]?).bind
        (fun p => (detailO p.biorxiv_doi).map (fun resp => detailsStep resp p)) := by
  intro ps
  induction ps with
  | nil =>
    intro qs hok
    simp [details] at hok
    subst hok
    simp
  | cons p ps ih =>
    intro qs hok
    unfold details at hok
    cases hd : detailO p.biorxiv_doi with
    | none => rw [hd] at hok; simp at hok
    | some resp =>
      rw [hd] at hok
      simp at hok
      cases hr : details detailO ps with
      | error e => rw [hr] at hok; simp at hok
      | ok rest =>
        rw [hr] at hok
        simp at hok
        subst hok
        have hih := ih rest hr
        refine ⟨by simp [hih.1], ?_⟩
        intro i
        cases i with
        | zero => simp [hd]
        | succ n => simpa using hih.2 n

/-- C9 amended: when every detail lookup in the batch is answered by the
endpoint (no network failure), the enrichment pass returns one output
per input, the item at every position depending only on that position's
input and its own response; a 200 response with a non-empty collection
populates the corresponding-author name and institution from the first
item, a 200 response with no match fills both with empty strings, and an
answered non-success response leaves the preprint untouched without
aborting the batch.  A network failure during one item's lookup,
however, raises and aborts the remaining items (see the
counterexample). -/
theorem details_enrichment_per_item (detailO : String → Option DetailResp)
    (ps qs : List Preprint) (hok : details detailO ps = Except.ok qs) :
    qs.length = ps.length ∧
    (∀ i : Nat, qs[i]? = (ps[i]?).bind
      (fun p => (detailO p.biorxiv_doi).map (fun resp => detailsStep resp p))) ∧
    (∀ p resp first rest, resp.status_code = 200 →
      resp.collection = first :: rest →
      detailsStep resp p =
        { p with corr_author := some first.author_corresponding,
                 institution := some first.author_corresponding_institution }) ∧
    (∀ p resp, resp.status_code = 200 → resp.collection = [] →
      detailsStep resp p =
        { p with corr_author := some "", institution := some "" }) ∧
    (∀ p resp, resp.status_code ≠ 200 → detailsStep resp p = p) := by
  have h := details_ok_elim detailO ps qs hok
  refine ⟨h.1, h.2, ?_, ?_, ?_⟩
  · intro p resp first rest h200 hcol
    simp [detailsStep, h200, hcol]
  · intro p resp h200 hcol
    simp [detailsStep, h200, hcol]
  · intro p resp h200
    simp [detailsStep, h200]

/-- The single author match returned by the witness detail endpoint. -/
def wAuthor : DetailItem :=
  { author_corresponding := "Ada Lovelace",
    author_corresponding_institution := "EMBO" }

/-- A detail endpoint that answers every lookup with one author match. -/
def wDetail : String → Option DetailResp :=
  fun _ => some { status_code := 200, collection := [wAuthor] }

/-- The witness preprint after enrichment. -/
def wPreEnriched : Preprint :=
  { wPre with corr_author := some "Ada Lovelace", institution := some "EMBO" }

/-- C9 witness: a batch of one preprint whose lookup is answered with a
match; the pass returns it with both author fields populated. -/
theorem details_enrichment_per_item_witness :
    details wDetail [wPre] = Except.ok [wPreEnriched] ∧
    ([wPreEnriched].length = [wPre].length ∧
     (∀ i : Nat, [wPreEnriched][i]? = ([wPre][i]?).bind
       (fun p => (wDetail p.biorxiv_doi).map (fun resp => detailsStep resp p))) ∧
     (∀ p resp first rest, resp.status_code = 200 →
       resp.collection = first :: rest →
       detailsStep resp p =
         { p with corr_author := some first.author_corresponding,
                  institution := some first.author_corresponding_institution }) ∧
     (∀ p resp, resp.status_code = 200 → resp.collection = [] →
       detailsStep resp p =
         { p with corr_author := some "", institution := some "" }) ∧
     (∀ p resp, resp.status_code ≠ 200 → detailsStep resp p = p)) :=
  ⟨rfl, details_enrichment_per_item wDetail [wPre] [wPreEnriched] rfl⟩

lemma isClassChar_ne_dot {c : Char} (h : isClassChar c = true) :
    (c == '.') = false := by
  cases hb : (c == '.') with
  | false => rfl
  | true =>
    have hcd : c = '.' := by simpa using hb
    subst hcd
    exact absurd h (by decide)

/-- C6: for every DOI of the form `10.<4-9 digits>/<seg1>.<seg2>` with
both suffix segments non-empty and drawn from the pattern's character
class, Grammar A strips the registrant prefix and the internal dot
(yielding `seg1 ++ seg2`) and builds the fixed base path with query
parameters `doi=<full doi>` and
`file=<seg1seg2>.reviewer_comments.pdf`. -/
theorem grammarA_builds_url (ds s1 s2 : List Char)
    (hds : ds.all Char.isDigit = true) (h4 : 4 ≤ ds.length)
    (h9 : ds.length ≤ 9) (h1 : s1 ≠ []) (h2 : s2 ≠ [])
    (hc1 : s1.all isClassChar = true) (hc2 : s2.all isClassChar = true) :
    ejErEmmMsbGenerateLink
        (String.mk ('1' :: '0' :: '.' :: (ds ++ '/' :: (s1 ++ '.' :: s2)))) =
      "https://www.embopress.org/action/downloadSupplement?doi=" ++
        String.mk ('1' :: '0' :: '.' :: (ds ++ '/' :: (s1 ++ '.' :: s2))) ++
        "&file=" ++ String.mk (s1 ++ s2) ++ ".reviewer_comments.pdf" := by
  have hTD := takeWhile_append_cons (s1 ++ '.' :: s2)
    (List.all_eq_true.mp hds) (by decide : Char.isDigit '/' = false)
  have hs1nd : ∀ a ∈ s1, (fun c => !(c == '.')) a = true := by
    intro a ha
    simpa using isClassChar_ne_dot (List.all_eq_true.mp hc1 a ha)
  have hSD := takeWhile_append_cons s2 hs1nd
    (by decide : (fun c => !(c == '.')) '.' = false)
  have hsuffix : grammarASuffix (s1 ++ '.' :: s2) = some (s1, s2) := by
    show (let g1 := (s1 ++ '.' :: s2).takeWhile (fun c => !(c == '.'))
      match (s1 ++ '.' :: s2).dropWhile (fun c => !(c == '.')) with
      | c :: g2 =>
        if c = '.' ∧ g1 ≠ [] ∧ g2 ≠ [] ∧ g1.all isClassChar = true ∧
            g2.all isClassChar = true
        then some (g1, g2) else none
      | [] => none) = some (s1, s2)
    rw [hSD.1, hSD.2]
    show (if ('.' : Char) = '.' ∧ s1 ≠ [] ∧ s2 ≠ [] ∧ s1.all isClassChar = true ∧
        s2.all isClassChar = true then some (s1, s2) else none) = some (s1, s2)
    rw [if_pos ⟨rfl, h1, h2, hc1, hc2⟩]
  have hmatch : grammarAMatchL
      ('1' :: '0' :: '.' :: (ds ++ '/' :: (s1 ++ '.' :: s2))) = some (s1, s2) := by
    show (if ('1' : Char) = '1' ∧ ('0' : Char) = '0' then
        (let t := (ds ++ '/' :: (s1 ++ '.' :: s2)).takeWhile Char.isDigit
         if 4 ≤ t.length ∧ t.length ≤ 9 then
           (match (ds ++ '/' :: (s1 ++ '.' :: s2)).dropWhile Char.isDigit with
            | c :: suffix => if c = '/' then grammarASuffix suffix else none
            | [] => none)
         else none)
      else none) = some (s1, s2)
    rw [if_pos ⟨rfl, rfl⟩, hTD.1, hTD.2]
    show (if 4 ≤ ds.length ∧ ds.length ≤ 9 then
        (if ('/' : Char) = '/' then grammarASuffix (s1 ++ '.' :: s2) else none)
      else none) = some (s1, s2)
    rw [if_pos ⟨h4, h9⟩, if_pos rfl, hsuffix]
  unfold ejErEmmMsbGenerateLink grammarASub
  rw [show (String.mk ('1' :: '0' :: '.' :: (ds ++ '/' :: (s1 ++ '.' :: s2)))).data
      = '1' :: '0' :: '.' :: (ds ++ '/' :: (s1 ++ '.' :: s2)) from rfl, hmatch]

/-- C6 witness: the doi `10.15252/msb.20198849` splits into the segments
`msb` and `20198849`; the constructed URL carries
`file=msb20198849.reviewer_comments.pdf`, the two segments concatenated
with the internal dot removed. -/
theorem grammarA_builds_url_witness :
    ("15252".data.all Char.isDigit = true) ∧ 4 ≤ "15252".data.length ∧
    "15252".data.length ≤ 9 ∧ "msb".data ≠ [] ∧ "20198849".data ≠ [] ∧
    "msb".data.all isClassChar = true ∧ "20198849".data.all isClassChar = true ∧
    ejErEmmMsbGenerateLink
        (String.mk ('1' :: '0' :: '.' ::
          ("15252".data ++ '/' :: ("msb".data ++ '.' :: "20198849".data)))) =
      "https://www.embopress.org/action/downloadSupplement?doi=" ++
        String.mk ('1' :: '0' :: '.' ::
          ("15252".data ++ '/' :: ("msb".data ++ '.' :: "20198849".data))) ++
        "&file=" ++ String.mk ("msb".data ++ "20198849".data) ++
        ".reviewer_comments.pdf" :=
  ⟨by decide, by decide, by decide, by decide, by decide, by decide, by decide,
   grammarA_builds_url "15252".data "msb".data "20198849".data (by decide)
     (by decide) (by decide) (by decide) (by decide) (by decide) (by decide)⟩
